import Mathlib

/-!
# Verification of the bilge session tracker and nudge engine

A shallow embedding of the core logic of the `bilge` repository:

* `ai.py` — `AIAgent.categorize_app` (classification cache with fallback),
* `rules_engine.py` — `RulesEngine.load_rules` / `evaluate_current_session`,
* `data_manager.py` — `DataManager.save_session`,
* `run.py` — `BilgeApp._get_app_info` and the session-tracking poll loop
  `BilgeApp.run`.

Pure functions are translated directly; the stateful poll loop becomes an
explicit state-transition function (`tick`) over `AppState`; Python
`datetime` values and `time.time()` stamps are modelled as rational epoch
seconds; Python dicts become association lists with replace-or-append
insertion.
-/

namespace Bilge

/-- The monitor's activity value (`monitor.py` / `macos.py`): either a plain
application-name string, or the Chrome-activity dict with keys
`window_name`, `active_tab_title`, `active_tab_url`. -/
inductive AppData where
  | simple (name : String)
  | browser (window_name : String) (active_tab_title : String)
      (active_tab_url : String)
deriving DecidableEq, Repr

/-- Python truthiness of the monitor result as tested by
`if current_app_data:` in `run.py`: an empty string is falsy, the Chrome
dict (which always carries its three keys) is truthy. -/
def AppData.truthy : AppData → Bool
  | .simple name => name ≠ ""
  | .browser _ _ _ => true

/-- `BilgeApp._get_app_info`, first component: the categorization string
(`"{active_tab_title} | {active_tab_url}"` for a browser dict, the raw
string otherwise). -/
def categorizationString : AppData → String
  | .simple name => name
  | .browser _ t u => t ++ " | " ++ u

/-- `BilgeApp._get_app_info`, second component: the app name used for the
session log (`"{window_name} | {active_tab_title}"` for a browser dict,
the raw string otherwise). -/
def appNameForLog : AppData → String
  | .simple name => name
  | .browser w t _ => w ++ " | " ++ t

/-- The cache key computed at the top of `AIAgent.categorize_app`:
the raw string itself, or `"chrome|{active_tab_title}|{active_tab_url}"`
for a browser dict. -/
def cacheKey : AppData → String
  | .simple name => name
  | .browser _ t u => "chrome|" ++ t ++ "|" ++ u

/-- A Python dict with string keys, modelled as an association list. -/
abbrev Dict (α : Type) := List (String × α)

/-- Dict lookup (`d[k]` / `k in d`). -/
def dictGet {α : Type} : Dict α → String → Option α
  | [], _ => none
  | (k, v) :: rest, key => if k = key then some v else dictGet rest key

/-- Dict assignment `d[k] = v`: replace the binding if the key is present,
otherwise add it. -/
def dictSet {α : Type} : Dict α → String → α → Dict α
  | [], key, val => [(key, val)]
  | (k, v) :: rest, key, val =>
      if k = key then (key, val) :: rest else (k, v) :: dictSet rest key val

/-- The closed category set of `AIAgent.categorize_app`
(`valid_categories`). -/
def valid_categories : List String :=
  ["Work", "Gaming", "Browsing", "Communication", "Media", "Other"]

/-- Result of one `categorize_app` call: the returned category, the cache
afterwards, whether the classifier (`_query_llm`) was invoked, and whether
the cache file was rewritten (`_save_cache`). -/
structure CategorizeResult where
  category : String
  cache : Dict String
  classifierCalled : Bool
  diskWrote : Bool
deriving DecidableEq, Repr

/-- `AIAgent.categorize_app`.  The classifier interaction is the per-call
input `response`: `some c` when `_query_llm` returns a parsed
`CategoryResponse` with category `c`, `none` when it raises (network
error, malformed response, …), in which case the code falls back to
`"Other"`.  A cache hit returns the stored value directly; on a miss the
(possibly fallback) label is validated against `valid_categories`, coerced
to `"Other"` if outside it, stored, and the cache is written to disk. -/
def categorize_app (cache : Dict String) (response : Option String)
    (app_data : AppData) : CategorizeResult :=
  let key := cacheKey app_data
  match dictGet cache key with
  | some v => ⟨v, cache, false, false⟩
  | none =>
      let category :=
        match response with
        | some c => c
        | none => "Other"
      let category := if category ∈ valid_categories then category else "Other"
      ⟨category, dictSet cache key category, true, true⟩

/-- One rule of `rules_engine.py`: a `(category, duration_seconds,
action_name)` triple.  Config durations are JSON numbers, modelled as
rationals. -/
structure Rule where
  category : String
  duration_seconds : ℚ
  action_name : String
deriving DecidableEq, Repr

/-- The built-in `DEFAULT_RULES` list of `rules_engine.py`. -/
def DEFAULT_RULES : List Rule :=
  [⟨"Work", 30, "short_work_session"⟩,
   ⟨"Gaming", 20, "short_gaming_session"⟩,
   ⟨"Browsing", 15, "short_browsing_session"⟩,
   ⟨"Media", 10, "short_media_session"⟩,
   ⟨"Communication", 10, "short_communication_session"⟩]

/-- The observable state of the rule configuration file at one read:
absent (`os.path.getmtime` / `open` raise `FileNotFoundError`), present
but not JSON-decodable (`json.load` raises `JSONDecodeError`), or a
well-formed config whose `"rules"` list parses to the given rules. -/
inductive RulesFile where
  | missing
  | invalidJson
  | valid (rules : List Rule)
deriving DecidableEq, Repr

/-- `RulesEngine.load_rules`.  Inputs: the file state, its modification
time (meaningful only when the file exists) and the engine's stored
`last_modified_time`.  Output: the rule list to use, the new
`last_modified_time`, and whether the "has been modified! Reloading"
message was printed.  On `FileNotFoundError` the mtime read itself raises,
so the stored timestamp is untouched; on a decode error the timestamp
bookkeeping has already run before `json.load` fails.  Both error paths
return `DEFAULT_RULES`. -/
def load_rules (file : RulesFile) (mtime lastMod : ℚ) :
    List Rule × ℚ × Bool :=
  match file with
  | .missing => (DEFAULT_RULES, lastMod, false)
  | .invalidJson =>
      (DEFAULT_RULES, if lastMod < mtime then mtime else lastMod,
       lastMod < mtime)
  | .valid rules =>
      (rules, if lastMod < mtime then mtime else lastMod, lastMod < mtime)

/-- Python `int()` on a float/rational: truncation toward zero. -/
def pyInt (q : ℚ) : Int :=
  if 0 ≤ q then ⌊q⌋ else -⌊-q⌋

/-- The `for` loop of `RulesEngine.evaluate_current_session` over the
loaded rules: first rule whose category matches, whose threshold is
reached, and whose action passes the per-action debounce fires; a
debounced match falls through to the next rule.  Returns the triggered
tuple (or `none`) together with the updated `last_nudged_time` dict. -/
def scanRules (rules : List Rule) (lastNudged : Dict ℚ) (category : String)
    (duration now : ℚ) : Option (String × String × Int) × Dict ℚ :=
  match rules with
  | [] => (none, lastNudged)
  | r :: rest =>
      if r.category = category ∧ r.duration_seconds ≤ duration then
        match dictGet lastNudged r.action_name with
        | none =>
            (some (r.action_name, category, pyInt duration),
             dictSet lastNudged r.action_name now)
        | some t =>
            if r.duration_seconds < now - t then
              (some (r.action_name, category, pyInt duration),
               dictSet lastNudged r.action_name now)
            else scanRules rest lastNudged category duration now
      else scanRules rest lastNudged category duration now

/-- `RulesEngine.evaluate_current_session`: reload the rules from the
file, then scan them.  Returns the trigger result, the updated
`last_nudged_time`, the freshly loaded rule list, and the updated
`last_modified_time`. -/
def evaluate_current_session (file : RulesFile) (mtime lastMod : ℚ)
    (lastNudged : Dict ℚ) (category : String) (duration now : ℚ) :
    (Option (String × String × Int) × Dict ℚ) × List Rule × ℚ :=
  let loaded := load_rules file mtime lastMod
  (scanRules loaded.1 lastNudged category duration now, loaded.1,
   loaded.2.1)

/-- The firing condition for a single rule at
`rules_engine.py:62-64`: category match, threshold reached, and the
per-action debounce passes (never fired, or strictly more than the rule's
own threshold ago). -/
def ruleFires (lastNudged : Dict ℚ) (category : String) (duration now : ℚ)
    (r : Rule) : Bool :=
  decide (r.category = category) && decide (r.duration_seconds ≤ duration) &&
    (match dictGet lastNudged r.action_name with
     | none => true
     | some t => decide (r.duration_seconds < now - t))

/-- Engine state carried by a `RulesEngine` instance: the current rule
list, the stored config mtime, and the per-action debounce dict. -/
structure EngineState where
  rules : List Rule
  last_modified_time : ℚ
  last_nudged_time : Dict ℚ
deriving DecidableEq, Repr

/-- The `self.rules = self.load_rules()` step
(`rules_engine.py:60`) acting on an engine state: the stored rule list is
replaced by whatever `load_rules` returns for the current file state. -/
def engineReload (s : EngineState) (file : RulesFile) (mtime : ℚ) :
    EngineState :=
  let loaded := load_rules file mtime s.last_modified_time
  { s with rules := loaded.1, last_modified_time := loaded.2.1 }

/-- One record of the `DataManager` session log (`data_manager.py`): the
two timestamps already serialized to strings, plus name, category and the
duration in seconds. -/
structure LogEntry where
  start_time : String
  end_time : String
  app_name : String
  category : String
  duration_seconds : ℚ
deriving DecidableEq, Repr

/-- `DataManager.save_session`.  Datetimes are epoch seconds (ℚ);
`iso` stands for `datetime.isoformat`, the standard library's ISO-8601
serialization, abstracted as a parameter since it is not repository code;
`(end_time - start_time).total_seconds()` is the plain difference in this
model.  The new entry is appended to `self.data`. -/
def save_session (iso : ℚ → String) (data : List LogEntry)
    (app_name category : String) (start_time end_time : ℚ) :
    List LogEntry :=
  data ++ [⟨iso start_time, iso end_time, app_name, category,
            end_time - start_time⟩]

/-- One `save_session` call made by the poll loop: the arguments
`(app_name, category, start_time, end_time)` passed at
`run.py:73-78` and `run.py:118-123`.  The `category` is `Option` because
`self.current_session_category` starts as `None`. -/
structure ClosedSession where
  app_name : String
  category : Option String
  start_time : ℚ
  end_time : ℚ
deriving DecidableEq, Repr

/-- Python truthiness of `self.current_session_app_name`
(`if self.current_session_app_name:`): `None` and the empty string are
falsy. -/
def optTruthy : Option String → Bool
  | none => false
  | some s => s ≠ ""

/-- The state a `BilgeApp` instance carries across poll ticks, together
with the sequence of `save_session` calls issued so far. -/
structure AppState where
  current_session_start_time : ℚ
  current_session_category : Option String
  current_session_app_name : Option String
  last_app_data : Option AppData
  nudged_for_session : Bool
  last_modified_time : ℚ
  last_nudged_time : Dict ℚ
  sessionLog : List ClosedSession
deriving DecidableEq, Repr

/-- `BilgeApp.__init__` session state: start time set to construction
time, no category, no app name, no last activity, nudge flag clear,
empty log. -/
def initialState (now lastMod : ℚ) : AppState :=
  ⟨now, none, none, none, false, lastMod, [], []⟩

/-- The `save_session` call closing the current session at time `now`
(identical at a boundary, `run.py:73-78`, and on interrupt,
`run.py:118-123`). -/
def closeRecord (s : AppState) (now : ℚ) : ClosedSession :=
  ⟨s.current_session_app_name.getD "", s.current_session_category,
   s.current_session_start_time, now⟩

/-- The boundary test of `run.py:66-68`:
`(current_app_data != self.last_app_data) or
 (current_category != self.current_session_category)`. -/
def isBoundary (s : AppState) (a : AppData) (cat : String) : Bool :=
  decide (some a ≠ s.last_app_data) ||
    decide (some cat ≠ s.current_session_category)

/-- Step 2 of the poll loop (`run.py:66-90`): on a boundary, close and log
the open session if there is one, then start a new session at `now` and
clear the nudge flag; otherwise leave the session state alone.  Returns
the new state, whether a boundary occurred, and whether a close record was
logged. -/
def sessionStep (s : AppState) (a : AppData) (cat : String) (now : ℚ) :
    AppState × Bool × Bool :=
  if isBoundary s a cat then
    let closed := optTruthy s.current_session_app_name
    let log := if closed then s.sessionLog ++ [closeRecord s now]
               else s.sessionLog
    ({ s with current_session_start_time := now,
              current_session_category := some cat,
              current_session_app_name := some (appNameForLog a),
              last_app_data := some a,
              nudged_for_session := false,
              sessionLog := log },
     true, closed)
  else (s, false, false)

/-- What one poll tick consumes: the monitor result, the category that
`categorize_app` returns for it, the rule-config file state with its
mtime, and the current time. -/
structure TickInput where
  activity : Option AppData
  category : String
  file : RulesFile
  mtime : ℚ
  now : ℚ
deriving Repr

/-- Observable events of one tick: a session boundary, a close record
appended to the log, a nudge fired. -/
structure TickEvents where
  boundary : Bool
  closed : Bool
  nudge : Bool
deriving DecidableEq, Repr

/-- The `evaluate_current_session` call made by the poll loop at
`run.py:98-100`: category and live duration are read off the current
session state. -/
def tickEval (s1 : AppState) (file : RulesFile) (mtime now : ℚ) :
    (Option (String × String × Int) × Dict ℚ) × List Rule × ℚ :=
  evaluate_current_session file mtime s1.last_modified_time
    s1.last_nudged_time (s1.current_session_category.getD "")
    (now - s1.current_session_start_time) now

/-- One iteration of the `while True` loop of `BilgeApp.run`
(`run.py:52-113`): skip when the monitor reports nothing (falsy), else
update the session state, and — only when the per-session nudge flag is
clear — run `evaluate_current_session` on the live duration, setting the
flag when a rule triggers. -/
def tick (s : AppState) (inp : TickInput) : AppState × TickEvents :=
  match inp.activity with
  | none => (s, ⟨false, false, false⟩)
  | some a =>
      if a.truthy then
        let step := sessionStep s a inp.category inp.now
        let s1 := step.1
        if s1.nudged_for_session then
          (s1, ⟨step.2.1, step.2.2, false⟩)
        else
          let ev := tickEval s1 inp.file inp.mtime inp.now
          match ev.1.1 with
          | some _ =>
              ({ s1 with nudged_for_session := true,
                         last_modified_time := ev.2.2,
                         last_nudged_time := ev.1.2 },
               ⟨step.2.1, step.2.2, true⟩)
          | none =>
              ({ s1 with last_modified_time := ev.2.2,
                         last_nudged_time := ev.1.2 },
               ⟨step.2.1, step.2.2, false⟩)
      else (s, ⟨false, false, false⟩)

/-- Run a sequence of poll ticks, collecting the per-tick events. -/
def runTicks (s : AppState) (inputs : List TickInput) :
    AppState × List TickEvents :=
  match inputs with
  | [] => (s, [])
  | i :: rest =>
      let t := tick s i
      let r := runTicks t.1 rest
      (r.1, t.2 :: r.2)

/-- The `KeyboardInterrupt` handler of `run.py:115-124`: if a session is
open (truthy app name), close and log it with `end_time = now`, then leave
the loop. -/
def handleInterrupt (s : AppState) (now : ℚ) : AppState :=
  if optTruthy s.current_session_app_name then
    { s with sessionLog := s.sessionLog ++ [closeRecord s now] }
  else s

/-- A whole run of the poll loop ended by Ctrl-C at time `now`. -/
def runWithInterrupt (s : AppState) (inputs : List TickInput) (now : ℚ) :
    AppState :=
  handleInterrupt (runTicks s inputs).1 now

/-- Number of ticks of a trace that fired a nudge. -/
def nudgeCount (events : List TickEvents) : Nat :=
  (events.filter (·.nudge)).length

/-! ## Helper lemmas -/

theorem dictGet_dictSet_self {α : Type} (c : Dict α) (k : String) (v : α) :
    dictGet (dictSet c k v) k = some v := by
  induction c with
  | nil => simp [dictGet, dictSet]
  | cons hd tl ih =>
      obtain ⟨k0, v0⟩ := hd
      by_cases h : k0 = k
      · simp [dictGet, dictSet, h]
      · simp [dictGet, dictSet, h, ih]

theorem dictGet_dictSet {α : Type} (c : Dict α) (k q : String) (v : α) :
    dictGet (dictSet c k v) q = if q = k then some v else dictGet c q := by
  induction c with
  | nil =>
      by_cases h : q = k
      · subst h; simp [dictGet, dictSet]
      · have h2 : ¬ k = q := fun hh => h hh.symm
        simp [dictGet, dictSet, h, h2]
  | cons hd tl ih =>
      obtain ⟨k0, v0⟩ := hd
      by_cases h0 : k0 = k
      · subst h0
        by_cases hq : q = k0
        · subst hq; simp [dictGet, dictSet]
        · have hq2 : ¬ k0 = q := fun hh => hq hh.symm
          simp [dictGet, dictSet, hq, hq2]
      · by_cases hq : k0 = q
        · have hqk : ¬ q = k := fun hh => h0 (hq.trans hh)
          simp [dictGet, dictSet, h0, hq, hqk]
        · simp [dictGet, dictSet, h0, hq, ih]

theorem pyInt_eq_floor (q : ℚ) (h : 0 ≤ q) : pyInt q = ⌊q⌋ :=
  if_pos h

/-! ## C7 — browser activity derived strings -/

/-- C7: for a browser activity `Browser{window_name, tab_title, tab_url}`,
the classification cache key is `"chrome|{tab_title}|{tab_url}"`, the log
label is `"{window_name} | {tab_title}"`, and the classification subject
is `"{tab_title} | {tab_url}"`. -/
theorem browser_activity_strings (w t u : String) :
    cacheKey (.browser w t u) = "chrome|" ++ t ++ "|" ++ u ∧
    appNameForLog (.browser w t u) = w ++ " | " ++ t ∧
    categorizationString (.browser w t u) = t ++ " | " ++ u :=
  ⟨rfl, rfl, rfl⟩

/-! ## C8 — session log records are append-only -/

/-- C8: `save_session` appends exactly one record, whose timestamps are
the `isoformat`-serializations of `start_time` and `end_time` and whose
`duration_seconds` is `end_time - start_time` in seconds; every
previously stored record is unchanged. -/
theorem save_session_appends (iso : ℚ → String) (data : List LogEntry)
    (app cat : String) (st et : ℚ) :
    save_session iso data app cat st et =
      data ++ [⟨iso st, iso et, app, cat, et - st⟩] ∧
    (save_session iso data app cat st et).take data.length = data ∧
    (save_session iso data app cat st et).length = data.length + 1 := by
  refine ⟨rfl, ?_, ?_⟩
  · exact List.take_left data _
  · simp [save_session]

/-! ## C6 — fallback on rule-config load failure -/

/-- C6 counterexample: after a *successful* load of a custom rule set,
a failing reload (missing file) does **not** fall back to that previously
loaded set — `load_rules` returns the built-in `DEFAULT_RULES`
unconditionally on failure. -/
theorem load_rules_fallback_counterexample :
    (engineReload
        (engineReload ⟨DEFAULT_RULES, 0, []⟩
          (.valid [⟨"Work", 5, "custom_work"⟩]) 1)
        .missing 1).rules ≠
      (engineReload ⟨DEFAULT_RULES, 0, []⟩
        (.valid [⟨"Work", 5, "custom_work"⟩]) 1).rules := by
  with_unfolding_all decide

/-- C6 (amended): when loading the rule configuration fails (missing file
or malformed content), the engine falls back to the built-in
`DEFAULT_RULES` — regardless of any rule set loaded before — and the
failure is handled, never propagated. -/
theorem load_rules_fallback (s : EngineState) (file : RulesFile)
    (mtime : ℚ) (h : file = .missing ∨ file = .invalidJson) :
    (engineReload s file mtime).rules = DEFAULT_RULES := by
  rcases h with h | h <;> subst h <;> rfl

/-- Witness for `load_rules_fallback` at a concrete engine state holding
previously loaded custom rules and a missing config file. -/
theorem load_rules_fallback_witness :
    (engineReload ⟨[⟨"Work", 5, "custom_work"⟩], 3, []⟩ .missing 0).rules =
      DEFAULT_RULES :=
  load_rules_fallback ⟨[⟨"Work", 5, "custom_work"⟩], 3, []⟩ .missing 0
    (Or.inl rfl)

/-! ## C10 — evaluation always uses the current file contents -/

/-- C10: every `evaluate_current_session` call re-reads and re-parses the
config file and uses its current contents (defaults when missing or
invalid), independently of the modification timestamp and of the stored
`last_modified_time`; the timestamp comparison only controls the
"Reloading..." message (and the stored timestamp), never which rules are
used. -/
theorem evaluate_rereads_config (file : RulesFile)
    (mtime lastMod mtime2 lastMod2 : ℚ) (lastNudged : Dict ℚ)
    (category : String) (duration now : ℚ) :
    ((load_rules file mtime lastMod).1 =
      match file with
      | .valid rules => rules
      | _ => DEFAULT_RULES) ∧
    ((evaluate_current_session file mtime lastMod lastNudged category
        duration now).1 =
      (evaluate_current_session file mtime2 lastMod2 lastNudged category
        duration now).1) ∧
    ((evaluate_current_session file mtime lastMod lastNudged category
        duration now).2.1 =
      (evaluate_current_session file mtime2 lastMod2 lastNudged category
        duration now).2.1) ∧
    (∀ rules : List Rule,
      (load_rules (.valid rules) mtime lastMod).2.2 =
        decide (lastMod < mtime)) := by
  cases file <;> exact ⟨rfl, rfl, rfl, fun _ => rfl⟩

/-! ## C2 — cache hits and idempotent failure fallback -/

/-- C2: a cache hit returns the stored value with no classifier call and
no disk write (whatever the classifier would have answered); after a
classifier failure for a key, `"Other"` is stored for that key, so the
key's next lookup is a hit returning `"Other"` without another classifier
call; and any `categorize_app` call preserves every existing cache
binding, so "every subsequent call" for the failed key stays a hit even
across calls for other keys. -/
theorem categorize_app_cache_and_fallback (cache : Dict String)
    (a : AppData) :
    (∀ v, dictGet cache (cacheKey a) = some v →
      ∀ r, categorize_app cache r a = ⟨v, cache, false, false⟩) ∧
    (dictGet cache (cacheKey a) = none →
      (categorize_app cache none a).category = "Other" ∧
      (categorize_app cache none a).cache =
        dictSet cache (cacheKey a) "Other" ∧
      (categorize_app cache none a).diskWrote = true ∧
      ∀ r, categorize_app (categorize_app cache none a).cache r a =
        ⟨"Other", (categorize_app cache none a).cache, false, false⟩) ∧
    (∀ (c : Dict String) (r : Option String) (b : AppData) (k v : String),
      dictGet c k = some v →
      dictGet (categorize_app c r b).cache k = some v) := by
  refine ⟨?_, ?_, ?_⟩
  · intro v hv r
    simp [categorize_app, hv]
  · intro h
    have hmiss : categorize_app cache none a =
        ⟨"Other", dictSet cache (cacheKey a) "Other", true, true⟩ := by
      simp [categorize_app, h, valid_categories]
    refine ⟨by rw [hmiss], by rw [hmiss], by rw [hmiss], ?_⟩
    intro r
    rw [hmiss]
    have hhit : dictGet (dictSet cache (cacheKey a) "Other") (cacheKey a) =
        some "Other" :=
      dictGet_dictSet_self cache (cacheKey a) "Other"
    simp [categorize_app, hhit]
  · intro c r b k v hkv
    cases hb : dictGet c (cacheKey b) with
    | some w =>
        have : (categorize_app c r b).cache = c := by
          simp [categorize_app, hb]
        rw [this]
        exact hkv
    | none =>
        have hkne : ¬ (k = cacheKey b) := fun hk => by
          rw [hk, hb] at hkv
          cases hkv
        have hcache : (categorize_app c r b).cache =
            dictSet c (cacheKey b) (categorize_app c r b).category := by
          cases r with
          | none => simp [categorize_app, hb, valid_categories]
          | some cr =>
              by_cases hc : cr ∈ valid_categories <;>
                simp [categorize_app, hb, hc]
        rw [hcache, dictGet_dictSet, if_neg hkne]
        exact hkv

/-- Witness for `categorize_app_cache_and_fallback`: a concrete hit, and
a concrete miss with failing classifier followed by a re-query. -/
theorem categorize_app_cache_and_fallback_witness :
    categorize_app [("Code", "Work")] (some "Gaming") (.simple "Code") =
      ⟨"Work", [("Code", "Work")], false, false⟩ ∧
    (categorize_app [] none (.simple "X")).category = "Other" ∧
    categorize_app (categorize_app [] none (.simple "X")).cache
        (some "Work") (.simple "X") =
      ⟨"Other", (categorize_app [] none (.simple "X")).cache, false,
       false⟩ := by
  have h1 := (categorize_app_cache_and_fallback [("Code", "Work")]
    (.simple "Code")).1 "Work" (by decide) (some "Gaming")
  have h2 := (categorize_app_cache_and_fallback [] (.simple "X")).2.1
    (by decide)
  exact ⟨h1, h2.1, h2.2.2.2 (some "Work")⟩

/-! ## C3 — category closure -/

/-- C3 counterexample: the claim also asserts closure for values served
from the cache loaded from disk, but `_load_cache` returns the parsed
JSON unvalidated and the cache-hit path returns the stored value
directly: with a disk cache mapping `"Slack"` to the lowercase `"work"`,
`categorize_app` returns `"work"`, which is outside the closed category
set. -/
theorem categorize_app_closed_counterexample :
    (categorize_app [("Slack", "work")] (some "Work")
        (.simple "Slack")).category ∉ valid_categories := by
  decide

/-- C3 (amended): every *freshly classified* value (cache miss) is
coerced into the closed set before being cached and returned; a cache hit
returns the stored value unvalidated, so the closure invariant holds
exactly when every value already in the cache lies in the closed set
(true for caches produced by `categorize_app` itself, but not for an
arbitrary disk-loaded cache), and it is preserved by every call. -/
theorem categorize_app_closed (cache : Dict String) (r : Option String)
    (a : AppData)
    (h : ∀ k v, dictGet cache k = some v → v ∈ valid_categories) :
    (categorize_app cache r a).category ∈ valid_categories ∧
    (∀ k v, dictGet (categorize_app cache r a).cache k = some v →
      v ∈ valid_categories) ∧
    (∀ cache2 : Dict String, dictGet cache2 (cacheKey a) = none →
      (categorize_app cache2 r a).category ∈ valid_categories) := by
  have fresh : ∀ cache2 : Dict String,
      dictGet cache2 (cacheKey a) = none →
      (categorize_app cache2 r a).category ∈ valid_categories := by
    intro cache2 h2
    cases r with
    | none => simp [categorize_app, h2, valid_categories]
    | some c =>
        by_cases hc : c ∈ valid_categories
        · have hcat : (categorize_app cache2 (some c) a).category = c := by
            simp [categorize_app, h2, hc]
          rw [hcat]; exact hc
        · have hcat : (categorize_app cache2 (some c) a).category =
              "Other" := by
            simp [categorize_app, h2, hc]
          rw [hcat]; simp [valid_categories]
  refine ⟨?_, ?_, fresh⟩
  · cases hv : dictGet cache (cacheKey a) with
    | some v =>
        have : (categorize_app cache r a).category = v := by
          simp [categorize_app, hv]
        rw [this]
        exact h _ v hv
    | none => exact fresh cache hv
  · intro k v hkv
    cases hv : dictGet cache (cacheKey a) with
    | some v0 =>
        have : (categorize_app cache r a).cache = cache := by
          simp [categorize_app, hv]
        rw [this] at hkv
        exact h k v hkv
    | none =>
        have hcache : (categorize_app cache r a).cache =
            dictSet cache (cacheKey a) (categorize_app cache r a).category := by
          cases r with
          | none => simp [categorize_app, hv, valid_categories]
          | some c =>
              by_cases hc : c ∈ valid_categories <;>
                simp [categorize_app, hv, hc]
        rw [hcache, dictGet_dictSet] at hkv
        by_cases hk : k = cacheKey a
        · rw [if_pos hk] at hkv
          cases hkv
          exact fresh cache hv
        · rw [if_neg hk] at hkv
          exact h k v hkv

/-- Witness for `categorize_app_closed`: a concrete well-formed cache,
an out-of-set classifier response, and a concrete fresh miss. -/
theorem categorize_app_closed_witness :
    (categorize_app [("Code", "Work")] (some "WORK ")
        (.simple "Terminal")).category ∈ valid_categories ∧
    (categorize_app [] (some "work") (.simple "Slack")).category ∈
      valid_categories := by
  have h1 := categorize_app_closed [("Code", "Work")] (some "WORK ")
    (.simple "Terminal") (by
      intro k v hv
      by_cases hk : k = "Code"
      · subst hk; simp [dictGet] at hv; simp [hv, valid_categories]
      · have hk2 : ¬ ("Code" = k) := fun hh => hk hh.symm
        simp [dictGet, hk2] at hv)
  have h2 := categorize_app_closed [] (some "work") (.simple "Slack")
    (by intro k v hv; simp [dictGet] at hv)
  exact ⟨h1.1, h2.1⟩

/-! ## C4 — rule evaluation semantics -/

theorem scanRules_cons (r : Rule) (rest : List Rule) (lastNudged : Dict ℚ)
    (category : String) (duration now : ℚ) :
    scanRules (r :: rest) lastNudged category duration now =
      if ruleFires lastNudged category duration now r then
        (some (r.action_name, category, pyInt duration),
         dictSet lastNudged r.action_name now)
      else scanRules rest lastNudged category duration now := by
  by_cases hc : r.category = category ∧ r.duration_seconds ≤ duration
  · cases hg : dictGet lastNudged r.action_name with
    | none =>
        have hf : ruleFires lastNudged category duration now r = true := by
          simp [ruleFires, hg, hc.1, hc.2]
        simp [scanRules, hc, hg, hf]
    | some t =>
        by_cases hlt : r.duration_seconds < now - t
        · have hf : ruleFires lastNudged category duration now r = true := by
            simp [ruleFires, hg, hc.1, hc.2, hlt]
          simp [scanRules, hc, hg, hlt, hf]
        · have hf : ruleFires lastNudged category duration now r =
              false := by
            simp [ruleFires, hg, hc.1, hc.2, hlt]
          simp [scanRules, hc, hg, hlt, hf]
  · have hf : ruleFires lastNudged category duration now r = false := by
      rcases not_and_or.mp hc with hcat | hdur
      · simp [ruleFires, hcat]
      · simp [ruleFires, hdur]
    simp [scanRules, hc, hf]

theorem scanRules_none_iff (rules : List Rule) (lastNudged : Dict ℚ)
    (category : String) (duration now : ℚ) :
    (scanRules rules lastNudged category duration now).1 = none ↔
      ∀ r ∈ rules, ruleFires lastNudged category duration now r = false := by
  induction rules with
  | nil => simp [scanRules]
  | cons r rest ih =>
      rw [scanRules_cons]
      by_cases hf : ruleFires lastNudged category duration now r
      · simp [hf]
      · simp [hf, ih]

theorem scanRules_all_skip (rules : List Rule) (lastNudged : Dict ℚ)
    (category : String) (duration now : ℚ)
    (h : ∀ r ∈ rules, ruleFires lastNudged category duration now r =
      false) :
    scanRules rules lastNudged category duration now = (none, lastNudged) := by
  induction rules with
  | nil => rfl
  | cons r rest ih =>
      rw [scanRules_cons,
        if_neg (by simp [h r (List.mem_cons_self r rest)])]
      exact ih fun r' hr' => h r' (List.mem_cons_of_mem r hr')

theorem scanRules_first_fire (pre : List Rule) (r : Rule)
    (post : List Rule) (lastNudged : Dict ℚ) (category : String)
    (duration now : ℚ)
    (hpre : ∀ r' ∈ pre, ruleFires lastNudged category duration now r' =
      false)
    (hr : ruleFires lastNudged category duration now r = true) :
    scanRules (pre ++ r :: post) lastNudged category duration now =
      (some (r.action_name, category, pyInt duration),
       dictSet lastNudged r.action_name now) := by
  induction pre with
  | nil => rw [List.nil_append, scanRules_cons, if_pos hr]
  | cons p pre ih =>
      rw [List.cons_append, scanRules_cons,
        if_neg (by simp [hpre p (List.mem_cons_self p pre)])]
      exact ih fun r' hr' => hpre r' (List.mem_cons_of_mem p hr')

/-- C4: `evaluate_current_session` scans the freshly loaded rules in list
order; a rule fires only when its category matches, the live duration has
reached its threshold, and the per-action debounce passes (never fired,
or more than the rule's *own* threshold ago); on firing, the action's
last-fired stamp is set to `now` and `(action, category,
floor(duration))` is returned without evaluating further rules; when no
rule matches or every match is debounced, no trigger is returned and the
debounce state is untouched. -/
theorem evaluate_current_session_spec (file : RulesFile)
    (mtime lastMod : ℚ) (lastNudged : Dict ℚ) (category : String)
    (duration now : ℚ) (hd : 0 ≤ duration) :
    ((evaluate_current_session file mtime lastMod lastNudged category
        duration now).1.1 = none ↔
      ∀ r ∈ (load_rules file mtime lastMod).1,
        ruleFires lastNudged category duration now r = false) ∧
    ((∀ r ∈ (load_rules file mtime lastMod).1,
        ruleFires lastNudged category duration now r = false) →
      (evaluate_current_session file mtime lastMod lastNudged category
        duration now).1 = (none, lastNudged)) ∧
    (∀ pre r post, (load_rules file mtime lastMod).1 = pre ++ r :: post →
      (∀ r' ∈ pre, ruleFires lastNudged category duration now r' =
        false) →
      ruleFires lastNudged category duration now r = true →
      (evaluate_current_session file mtime lastMod lastNudged category
        duration now).1 =
        (some (r.action_name, category, ⌊duration⌋),
         dictSet lastNudged r.action_name now)) := by
  refine ⟨?_, ?_, ?_⟩
  · exact scanRules_none_iff (load_rules file mtime lastMod).1 lastNudged
      category duration now
  · intro h
    exact scanRules_all_skip (load_rules file mtime lastMod).1 lastNudged
      category duration now h
  · intro pre r post heq hpre hr
    show scanRules (load_rules file mtime lastMod).1 lastNudged category
      duration now = _
    rw [heq, scanRules_first_fire pre r post lastNudged category duration
      now hpre hr, pyInt_eq_floor duration hd]

/-- Witness for `evaluate_current_session_spec`: a single Work rule with
threshold 30, never-fired action, live duration 45. -/
theorem evaluate_current_session_spec_witness :
    (evaluate_current_session (.valid [⟨"Work", 30, "short_work_session"⟩])
        5 0 [] "Work" 45 100).1 =
      (some ("short_work_session", "Work", 45),
       [("short_work_session", 100)]) := by
  have h := (evaluate_current_session_spec
    (.valid [⟨"Work", 30, "short_work_session"⟩]) 5 0 [] "Work" 45 100
    (by decide)).2.2 [] ⟨"Work", 30, "short_work_session"⟩ [] rfl
    (by intro r' hr'; simp at hr') (by decide)
  rw [h]
  with_unfolding_all decide

/-! ## C1 — session boundary semantics -/

theorem isBoundary_iff (s : AppState) (a : AppData) (cat : String) :
    isBoundary s a cat = true ↔
      (some a ≠ s.last_app_data ∨
        some cat ≠ s.current_session_category) := by
  simp [isBoundary]

theorem isBoundary_of_first (s : AppState) (a : AppData) (cat : String)
    (h : s.last_app_data = none) : isBoundary s a cat = true := by
  simp [isBoundary, h]

theorem sessionStep_boundary (s : AppState) (a : AppData) (cat : String)
    (now : ℚ) (hb : isBoundary s a cat = true) :
    sessionStep s a cat now =
      ({ s with current_session_start_time := now,
                current_session_category := some cat,
                current_session_app_name := some (appNameForLog a),
                last_app_data := some a,
                nudged_for_session := false,
                sessionLog :=
                  if optTruthy s.current_session_app_name then
                    s.sessionLog ++ [closeRecord s now]
                  else s.sessionLog },
       true, optTruthy s.current_session_app_name) := by
  unfold sessionStep
  rw [hb]
  simp

theorem sessionStep_no_boundary (s : AppState) (a : AppData)
    (cat : String) (now : ℚ) (hb : isBoundary s a cat = false) :
    sessionStep s a cat now = (s, false, false) := by
  unfold sessionStep
  rw [hb]
  simp

theorem tick_truthy (s : AppState) (a : AppData) (cat : String)
    (file : RulesFile) (mtime now : ℚ) (ht : a.truthy = true) :
    ∃ nf lm ln ng,
      tick s ⟨some a, cat, file, mtime, now⟩ =
        ({ (sessionStep s a cat now).1 with
            nudged_for_session := nf, last_modified_time := lm,
            last_nudged_time := ln },
         ⟨(sessionStep s a cat now).2.1, (sessionStep s a cat now).2.2,
          ng⟩) := by
  unfold tick
  dsimp only
  rw [ht]
  simp only [if_true]
  split
  · exact ⟨(sessionStep s a cat now).1.nudged_for_session,
      (sessionStep s a cat now).1.last_modified_time,
      (sessionStep s a cat now).1.last_nudged_time, false, rfl⟩
  · split
    · exact ⟨true, _, _, true, rfl⟩
    · exact ⟨(sessionStep s a cat now).1.nudged_for_session, _, _, false,
        rfl⟩

/-- C1: on a poll tick that observes a truthy activity, a session
boundary occurs exactly when the observed activity differs from
`last_app_data` or the classified category differs from the current
session's category; on a boundary the open session (non-empty
`current_session_app_name`) is closed and appended to the session log and
a new session starts with `start_time = now`; without a boundary the
session state and log are untouched; and the very first observation
(`last_app_data = None`, `current_session_app_name = None`) is always a
boundary that appends no close record. -/
theorem session_boundary_spec (s : AppState) (a : AppData) (cat : String)
    (file : RulesFile) (mtime now : ℚ) (res : AppState × TickEvents)
    (ht : a.truthy = true)
    (hres : res = tick s ⟨some a, cat, file, mtime, now⟩) :
    (isBoundary s a cat = true ↔
      (some a ≠ s.last_app_data ∨
        some cat ≠ s.current_session_category)) ∧
    res.2.boundary = isBoundary s a cat ∧
    (isBoundary s a cat = true →
      res.1.current_session_start_time = now ∧
      res.1.current_session_category = some cat ∧
      res.1.current_session_app_name = some (appNameForLog a) ∧
      res.1.last_app_data = some a ∧
      (optTruthy s.current_session_app_name = true →
        res.1.sessionLog = s.sessionLog ++ [closeRecord s now] ∧
        res.2.closed = true) ∧
      (optTruthy s.current_session_app_name = false →
        res.1.sessionLog = s.sessionLog ∧ res.2.closed = false)) ∧
    (isBoundary s a cat = false →
      res.1.current_session_start_time = s.current_session_start_time ∧
      res.1.current_session_category = s.current_session_category ∧
      res.1.current_session_app_name = s.current_session_app_name ∧
      res.1.sessionLog = s.sessionLog ∧ res.2.closed = false) ∧
    (s.last_app_data = none → isBoundary s a cat = true) ∧
    (s.current_session_app_name = none →
      res.1.sessionLog = s.sessionLog ∧ res.2.closed = false) := by
  obtain ⟨nf, lm, ln, ng, heq⟩ := tick_truthy s a cat file mtime now ht
  subst hres
  rw [heq]
  refine ⟨isBoundary_iff s a cat, ?_, ?_, ?_, isBoundary_of_first s a cat,
    ?_⟩
  · cases hb : isBoundary s a cat
    · rw [sessionStep_no_boundary s a cat now hb]
    · rw [sessionStep_boundary s a cat now hb]
  · intro hb
    rw [sessionStep_boundary s a cat now hb]
    dsimp only
    refine ⟨rfl, rfl, rfl, rfl, ?_, ?_⟩
    · intro hopen
      rw [hopen]
      simp
    · intro hclosed
      rw [hclosed]
      simp
  · intro hb
    rw [sessionStep_no_boundary s a cat now hb]
    exact ⟨rfl, rfl, rfl, rfl, rfl⟩
  · intro hname
    have hfalse : optTruthy s.current_session_app_name = false := by
      rw [hname]; rfl
    cases hb : isBoundary s a cat
    · rw [sessionStep_no_boundary s a cat now hb]
      exact ⟨rfl, rfl⟩
    · rw [sessionStep_boundary s a cat now hb]
      dsimp only
      rw [hfalse]
      simp

/-- Witness for `session_boundary_spec`: the very first observation from
the initial state is a boundary that logs nothing, opens a session at
`now = 1`, and records the observed activity. -/
theorem session_boundary_spec_witness :
    isBoundary (initialState 0 0) (.simple "Code") "Work" = true ∧
    (tick (initialState 0 0)
        ⟨some (.simple "Code"), "Work", .missing, 0, 1⟩).1.sessionLog =
      (initialState 0 0).sessionLog ∧
    (tick (initialState 0 0)
        ⟨some (.simple "Code"), "Work", .missing, 0,
          1⟩).1.current_session_start_time = 1 := by
  have h := session_boundary_spec (initialState 0 0) (.simple "Code")
    "Work" .missing 0 1
    (tick (initialState 0 0) ⟨some (.simple "Code"), "Work", .missing, 0, 1⟩)
    (by decide) rfl
  have hb := h.2.2.2.2.1 rfl
  exact ⟨hb, (h.2.2.2.2.2 rfl).1, (h.2.2.1 hb).1⟩

/-! ## C5 — at most one nudge per open session -/

theorem runTicks_cons (s : AppState) (i : TickInput)
    (rest : List TickInput) :
    runTicks s (i :: rest) =
      ((runTicks (tick s i).1 rest).1,
       (tick s i).2 :: (runTicks (tick s i).1 rest).2) := rfl

theorem nudgeCount_cons (e : TickEvents) (es : List TickEvents) :
    nudgeCount (e :: es) =
      (if e.nudge then 1 else 0) + nudgeCount es := by
  cases he : e.nudge <;>
    simp [nudgeCount, List.filter_cons, he, Nat.add_comm]

theorem tick_none_eq (s : AppState) (cat : String) (file : RulesFile)
    (mtime now : ℚ) :
    tick s ⟨none, cat, file, mtime, now⟩ = (s, ⟨false, false, false⟩) :=
  rfl

theorem tick_not_truthy (s : AppState) (a : AppData) (cat : String)
    (file : RulesFile) (mtime now : ℚ) (ht : a.truthy = false) :
    tick s ⟨some a, cat, file, mtime, now⟩ = (s, ⟨false, false, false⟩) := by
  unfold tick
  dsimp only
  rw [ht]
  simp

theorem tick_truthy_flagged (s : AppState) (a : AppData) (cat : String)
    (file : RulesFile) (mtime now : ℚ) (ht : a.truthy = true)
    (hn : (sessionStep s a cat now).1.nudged_for_session = true) :
    tick s ⟨some a, cat, file, mtime, now⟩ =
      ((sessionStep s a cat now).1,
       ⟨(sessionStep s a cat now).2.1, (sessionStep s a cat now).2.2,
        false⟩) := by
  unfold tick
  dsimp only
  rw [ht, hn]
  simp

theorem tick_truthy_eval_some (s : AppState) (a : AppData) (cat : String)
    (file : RulesFile) (mtime now : ℚ)
    (val : String × String × Int) (ht : a.truthy = true)
    (hn : (sessionStep s a cat now).1.nudged_for_session = false)
    (hev : (tickEval (sessionStep s a cat now).1 file mtime now).1.1 =
      some val) :
    tick s ⟨some a, cat, file, mtime, now⟩ =
      ({ (sessionStep s a cat now).1 with
          nudged_for_session := true,
          last_modified_time :=
            (tickEval (sessionStep s a cat now).1 file mtime now).2.2,
          last_nudged_time :=
            (tickEval (sessionStep s a cat now).1 file mtime now).1.2 },
       ⟨(sessionStep s a cat now).2.1, (sessionStep s a cat now).2.2,
        true⟩) := by
  unfold tick
  dsimp only
  rw [ht, hn, hev]
  simp

theorem tick_truthy_eval_none (s : AppState) (a : AppData) (cat : String)
    (file : RulesFile) (mtime now : ℚ) (ht : a.truthy = true)
    (hn : (sessionStep s a cat now).1.nudged_for_session = false)
    (hev : (tickEval (sessionStep s a cat now).1 file mtime now).1.1 =
      none) :
    tick s ⟨some a, cat, file, mtime, now⟩ =
      ({ (sessionStep s a cat now).1 with
          last_modified_time :=
            (tickEval (sessionStep s a cat now).1 file mtime now).2.2,
          last_nudged_time :=
            (tickEval (sessionStep s a cat now).1 file mtime now).1.2 },
       ⟨(sessionStep s a cat now).2.1, (sessionStep s a cat now).2.2,
        false⟩) := by
  unfold tick
  dsimp only
  rw [ht, hn, hev]
  simp

theorem tick_boundary_eq (s : AppState) (a : AppData) (cat : String)
    (file : RulesFile) (mtime now : ℚ) (ht : a.truthy = true) :
    (tick s ⟨some a, cat, file, mtime, now⟩).2.boundary =
      (sessionStep s a cat now).2.1 := by
  obtain ⟨nf, lm, ln, ng, heq⟩ := tick_truthy s a cat file mtime now ht
  rw [heq]

theorem tick_nudge_sets_flag (s : AppState) (i : TickInput)
    (h : (tick s i).2.nudge = true) :
    (tick s i).1.nudged_for_session = true := by
  obtain ⟨act, cat, file, mtime, now⟩ := i
  cases act with
  | none => rw [tick_none_eq] at h; simp at h
  | some a =>
      cases ht : a.truthy
      · rw [tick_not_truthy s a cat file mtime now ht] at h; simp at h
      · cases hn : (sessionStep s a cat now).1.nudged_for_session
        · cases hev : (tickEval (sessionStep s a cat now).1 file mtime
              now).1.1 with
          | none =>
              rw [tick_truthy_eval_none s a cat file mtime now ht hn hev]
                at h
              simp at h
          | some val =>
              rw [tick_truthy_eval_some s a cat file mtime now val ht hn
                hev]
        · rw [tick_truthy_flagged s a cat file mtime now ht hn] at h
          simp at h

theorem tick_flagged_no_boundary (s : AppState) (i : TickInput)
    (hn : s.nudged_for_session = true)
    (hb : (tick s i).2.boundary = false) :
    (tick s i).2.nudge = false ∧
      (tick s i).1.nudged_for_session = true := by
  obtain ⟨act, cat, file, mtime, now⟩ := i
  cases act with
  | none => rw [tick_none_eq]; exact ⟨rfl, hn⟩
  | some a =>
      cases ht : a.truthy
      · rw [tick_not_truthy s a cat file mtime now ht]; exact ⟨rfl, hn⟩
      · cases hbb : isBoundary s a cat
        · have hstep := sessionStep_no_boundary s a cat now hbb
          have hn2 : (sessionStep s a cat now).1.nudged_for_session =
              true := by rw [hstep]; exact hn
          rw [tick_truthy_flagged s a cat file mtime now ht hn2]
          exact ⟨rfl, hn2⟩
        · rw [tick_boundary_eq s a cat file mtime now ht,
            sessionStep_boundary s a cat now hbb] at hb
          simp at hb

theorem tick_no_nudge_keeps_flag (s : AppState) (i : TickInput)
    (hb : (tick s i).2.boundary = false)
    (hg : (tick s i).2.nudge = false) :
    (tick s i).1.nudged_for_session = s.nudged_for_session := by
  obtain ⟨act, cat, file, mtime, now⟩ := i
  cases act with
  | none => rw [tick_none_eq]
  | some a =>
      cases ht : a.truthy
      · rw [tick_not_truthy s a cat file mtime now ht]
      · cases hbb : isBoundary s a cat
        · have hstep := sessionStep_no_boundary s a cat now hbb
          cases hn : (sessionStep s a cat now).1.nudged_for_session
          · cases hev : (tickEval (sessionStep s a cat now).1 file mtime
                now).1.1 with
            | none =>
                rw [tick_truthy_eval_none s a cat file mtime now ht hn
                  hev]
                show (sessionStep s a cat now).1.nudged_for_session = _
                rw [hstep]
            | some val =>
                rw [tick_truthy_eval_some s a cat file mtime now val ht
                  hn hev] at hg
                simp at hg
          · rw [tick_truthy_flagged s a cat file mtime now ht hn]
            show (sessionStep s a cat now).1.nudged_for_session = _
            rw [hstep]
        · rw [tick_boundary_eq s a cat file mtime now ht,
            sessionStep_boundary s a cat now hbb] at hb
          simp at hb

theorem nudges_bounded (inputs : List TickInput) (s : AppState)
    (h : ∀ e ∈ (runTicks s inputs).2, e.boundary = false) :
    nudgeCount (runTicks s inputs).2 ≤
      if s.nudged_for_session then 0 else 1 := by
  induction inputs generalizing s with
  | nil =>
      simp [runTicks, nudgeCount]
  | cons i rest ih =>
      rw [runTicks_cons] at h ⊢
      have hb : (tick s i).2.boundary = false :=
        h _ (List.mem_cons_self _ _)
      have hrest : ∀ e ∈ (runTicks (tick s i).1 rest).2,
          e.boundary = false :=
        fun e he => h e (List.mem_cons_of_mem _ he)
      rw [nudgeCount_cons]
      cases hn : s.nudged_for_session
      · cases hg : (tick s i).2.nudge
        · have hkeep := tick_no_nudge_keeps_flag s i hb hg
          have := ih (tick s i).1 hrest
          rw [hkeep, hn] at this
          simpa [hg] using this
        · have hflag := tick_nudge_sets_flag s i hg
          have := ih (tick s i).1 hrest
          rw [hflag] at this
          simp only [if_true] at this
          simp [hg]
          omega
      · obtain ⟨hg, hflag⟩ := tick_flagged_no_boundary s i hn hb
        have := ih (tick s i).1 hrest
        rw [hflag] at this
        simp only [if_true] at this
        simpa [hg] using this

/-- C5: within one open session (a boundary tick followed by any number
of ticks with no further boundary) at most one nudge is fired: once a
nudge fires, `nudged_for_session` is set and the orchestrator skips rule
evaluation until the next session boundary clears the flag. -/
theorem at_most_one_nudge_per_session (s : AppState) (i : TickInput)
    (inputs : List TickInput)
    (hb : (tick s i).2.boundary = true)
    (h : ∀ e ∈ (runTicks (tick s i).1 inputs).2, e.boundary = false) :
    nudgeCount ((tick s i).2 :: (runTicks (tick s i).1 inputs).2) ≤ 1 := by
  rw [nudgeCount_cons]
  cases hg : (tick s i).2.nudge
  · have hbound := nudges_bounded inputs (tick s i).1 h
    cases hflag : (tick s i).1.nudged_for_session <;>
      rw [hflag] at hbound <;> simp at hbound <;> simp [hg] <;> omega
  · have hflag := tick_nudge_sets_flag s i hg
    have hbound := nudges_bounded inputs (tick s i).1 h
    rw [hflag] at hbound
    simp only [if_true] at hbound
    simp [hg]
    omega

/-- Witness for `at_most_one_nudge_per_session`: the first observation
opens a session; one further tick of the same activity follows. -/
theorem at_most_one_nudge_per_session_witness :
    (tick (initialState 0 0)
        ⟨some (.simple "Code"), "Work", .missing, 0, 1⟩).2.boundary =
      true ∧
    nudgeCount
      ((tick (initialState 0 0)
          ⟨some (.simple "Code"), "Work", .missing, 0, 1⟩).2 ::
        (runTicks
          (tick (initialState 0 0)
            ⟨some (.simple "Code"), "Work", .missing, 0, 1⟩).1
          [⟨some (.simple "Code"), "Work", .missing, 0, 2⟩]).2) ≤ 1 := by
  have hb : (tick (initialState 0 0)
      ⟨some (.simple "Code"), "Work", .missing, 0, 1⟩).2.boundary =
      true := by
    with_unfolding_all decide
  refine ⟨hb, at_most_one_nudge_per_session (initialState 0 0)
    ⟨some (.simple "Code"), "Work", .missing, 0, 1⟩
    [⟨some (.simple "Code"), "Work", .missing, 0, 2⟩] hb ?_⟩
  intro e he
  have : (runTicks
      (tick (initialState 0 0)
        ⟨some (.simple "Code"), "Work", .missing, 0, 1⟩).1
      [⟨some (.simple "Code"), "Work", .missing, 0, 2⟩]).2 =
      [⟨false, false, false⟩] := by
    with_unfolding_all decide
  rw [this] at he
  simp at he
  rw [he]

/-! ## C9 — graceful shutdown closes the open session -/

/-- C9: on interrupt, an open session (truthy app name) is closed and
appended to the session log with `end_time = now`, via the same
`closeRecord` call shape as a boundary close; with no open session the
state is returned unchanged; the loop then terminates normally (the
handler is a total function returning the final state — no error exit
path exists). -/
theorem interrupt_closes_open_session (s : AppState)
    (inputs : List TickInput) (now : ℚ) :
    (optTruthy (runTicks s inputs).1.current_session_app_name = true →
      (runWithInterrupt s inputs now).sessionLog =
        (runTicks s inputs).1.sessionLog ++
          [closeRecord (runTicks s inputs).1 now]) ∧
    (optTruthy (runTicks s inputs).1.current_session_app_name = false →
      runWithInterrupt s inputs now = (runTicks s inputs).1) := by
  unfold runWithInterrupt handleInterrupt
  constructor
  · intro h
    rw [h]
    simp
  · intro h
    rw [h]
    simp

/-- Witness for `interrupt_closes_open_session`: one tick opens a
session, the interrupt at `now = 5` closes and logs it. -/
theorem interrupt_closes_open_session_witness :
    optTruthy (runTicks (initialState 0 0)
        [⟨some (.simple "Code"), "Work", .missing, 0,
          1⟩]).1.current_session_app_name = true ∧
    (runWithInterrupt (initialState 0 0)
        [⟨some (.simple "Code"), "Work", .missing, 0, 1⟩] 5).sessionLog =
      (runTicks (initialState 0 0)
        [⟨some (.simple "Code"), "Work", .missing, 0,
          1⟩]).1.sessionLog ++
        [closeRecord (runTicks (initialState 0 0)
          [⟨some (.simple "Code"), "Work", .missing, 0, 1⟩]).1 5] := by
  have ho : optTruthy (runTicks (initialState 0 0)
      [⟨some (.simple "Code"), "Work", .missing, 0,
        1⟩]).1.current_session_app_name = true := by
    with_unfolding_all decide
  exact ⟨ho, (interrupt_closes_open_session (initialState 0 0)
    [⟨some (.simple "Code"), "Work", .missing, 0, 1⟩] 5).1 ho⟩

end Bilge
